import Mathlib

/-!
Verification of the concurrent DQN training pipeline of TStarBot1
(`agents/fast_dqn_agent.py`, plus the deprecated variant
`deprecated/agents/fast_dqn_agent.py`).

The embedding is shallow: tensors of floats become lists of rationals
(exact arithmetic), the real-valued epsilon schedule (which uses
`math.exp`) is embedded over the reals, and the learner loop becomes an
explicit state-transition function over an abstract parameter type.
-/

namespace TStarBot

/-- The configuration fields of `FastDQNAgent` read by `_get_current_eps`:
`_eps_method`, `_eps_start`, `_eps_end`, `_eps_decay`. -/
structure EpsConfig where
  epsMethod : String
  epsStart : ℝ
  epsEnd : ℝ
  epsDecay : ℝ

/-- The `exponential` branch of `FastDQNAgent._get_current_eps`:
`eps = eps_end + (eps_start - eps_end) * math.exp(-1. * steps / eps_decay)`. -/
noncomputable def expEps (cfg : EpsConfig) (steps : ℕ) : ℝ :=
  cfg.epsEnd + (cfg.epsStart - cfg.epsEnd) * Real.exp (-1 * steps / cfg.epsDecay)

/-- The `linear` branch of `FastDQNAgent._get_current_eps`:
`steps = min(eps_decay, steps); eps = eps_start - (eps_start - eps_end) * steps / eps_decay`. -/
noncomputable def linEps (cfg : EpsConfig) (steps : ℕ) : ℝ :=
  cfg.epsStart - (cfg.epsStart - cfg.epsEnd) * min cfg.epsDecay (steps : ℝ) / cfg.epsDecay

/-- `FastDQNAgent._get_current_eps` (lines 317-327): dispatches on the
`_eps_method` string; raises `NotImplementedError` (here: `none`) for any
other method identifier. -/
noncomputable def getCurrentEps (cfg : EpsConfig) (steps : ℕ) : Option ℝ :=
  if cfg.epsMethod = "exponential" then some (expEps cfg steps)
  else if cfg.epsMethod = "linear" then some (linEps cfg steps)
  else none

/-- `torch.nn.functional.mse_loss` with default mean reduction, on
one-dimensional inputs: mean of squared differences. -/
def mseLoss (q targetQ : List ℚ) : ℚ :=
  (List.zipWith (fun a b => (a - b) ^ 2) q targetQ).sum / (List.zipWith (fun a b => (a - b) ^ 2) q targetQ).length

/-- The element-wise smooth-L1 (Huber) term used by
`torch.nn.functional.smooth_l1_loss`: `0.5 * d^2` when `|d| < 1`, else `|d| - 0.5`. -/
def smoothL1Term (a b : ℚ) : ℚ :=
  if |a - b| < 1 then (a - b) ^ 2 / 2 else |a - b| - 1 / 2

/-- `torch.nn.functional.smooth_l1_loss` with default mean reduction, on
one-dimensional inputs. -/
def smoothL1Loss (q targetQ : List ℚ) : ℚ :=
  (List.zipWith smoothL1Term q targetQ).sum / (List.zipWith smoothL1Term q targetQ).length

/-- The loss dispatch of `FastDQNAgent._optimize` (lines 204-209): dispatches
on the `_loss_type` string; raises `NotImplementedError` (here: `none`)
for any other loss identifier. -/
def computeLoss (lossType : String) (q targetQ : List ℚ) : Option ℚ :=
  if lossType = "smooth_l1" then some (smoothL1Loss q targetQ)
  else if lossType = "mse" then some (mseLoss q targetQ)
  else none

/-- The row maximum, `q_next.max(dim=1)[0]` of `_optimize` for one batch row
(a row is the vector of action-values for one next-observation). `torch.max`
over an empty dimension is an error; the claims only use nonempty rows, and
the `[]` case is given the junk value `0`. -/
def rowMax : List ℚ → ℚ
  | [] => 0
  | [x] => x
  | x :: y :: t => max x (rowMax (y :: t))

/-- The row argmax, `q_next.max(dim=1)[1]` of `_optimize` for one batch row:
the index of a maximal entry (the first one on ties). -/
def argmaxIdx : List ℚ → ℕ
  | [] => 0
  | [_] => 0
  | x :: y :: t => if x < rowMax (y :: t) then argmaxIdx (y :: t) + 1 else 0

/-- The double-DQN branch of `_optimize` (lines 192-194):
`futures = q_next_target.gather(1, q_next.max(dim=1)[1].view(-1, 1)).squeeze()`,
i.e. row `i` of the result is `q_next_target[i][argmax(q_next[i])]`. -/
def gatherArgmax (qNextTarget qNext : List (List ℚ)) : List ℚ :=
  List.zipWith (fun tRow nRow => tRow.getD (argmaxIdx nRow) 0) qNextTarget qNext

/-- Lines 191-196 of `_optimize`: the bootstrapped future values before the
done-mask, for the double-DQN and plain branches. -/
def optimizeFutures (doubleDqn : Bool) (qNext qNextTarget : List (List ℚ)) : List ℚ :=
  if doubleDqn then gatherArgmax qNextTarget qNext
  else qNext.map rowMax

/-- Line 197 of `_optimize`: `futures = futures * (1 - done_batch)`, where
`done_batch` is the 0/1 float encoding (`torch.Tensor(batch.done)`) of the
boolean done flags. -/
def maskDone (futures : List ℚ) (dones : List Bool) : List ℚ :=
  List.zipWith (fun f d => f * (1 - (if d then (1 : ℚ) else 0))) futures dones

/-- Lines 190-198 of `_optimize`: the full bootstrapped target
`target_q = reward_batch + discount * futures` with
`futures = futures * (1 - done_batch)` applied first. -/
def optimizeTargetQ (doubleDqn : Bool) (discount : ℚ) (qNext qNextTarget : List (List ℚ))
    (rewards : List ℚ) (dones : List Bool) : List ℚ :=
  List.zipWith (fun r f => r + discount * f)
    rewards (maskDone (optimizeFutures doubleDqn qNext qNextTarget) dones)

/-- The characters after the last dash of a path, the whole path when it has
no dash: `path[path.rfind('-')+1:]` from `FastDQNAgent.__init__` (line 131). -/
def afterLastDash : List Char → List Char
  | [] => []
  | c :: rest =>
    if rest.contains '-' then afterLastDash rest
    else if c = '-' then rest else c :: afterLastDash rest

/-- The numeric value of a decimal digit character, `none` otherwise. -/
def digitVal (c : Char) : Option ℕ :=
  if '0' ≤ c ∧ c ≤ '9' then some (c.toNat - '0'.toNat) else none

/-- Accumulator loop for decimal parsing. -/
def parseNatAux : ℕ → List Char → Option ℕ
  | acc, [] => some acc
  | acc, c :: cs =>
    match digitVal c with
    | some d => parseNatAux (10 * acc + d) cs
    | none => none

/-- Python `int(...)` restricted to the nonnegative all-digit suffixes
produced by `_save_model`: fails on an empty or non-digit string. -/
def parseNatChars (cs : List Char) : Option ℕ :=
  if cs = [] then none else parseNatAux 0 cs

/-- `int(init_model_path[init_model_path.rfind('-')+1:])` from
`FastDQNAgent.__init__` (lines 131-132): the trailing step count parsed
from a checkpoint filename. -/
def parseTrailingStep (path : List Char) : Option ℕ :=
  parseNatChars (afterLastDash path)

/-- Decimal rendering of a natural number, `'%d' % n`. -/
def natChars (n : ℕ) : List Char := Nat.toDigits 10 n

/-- The checkpoint filename `'agent.model-%d' % steps` from `learn`
(lines 174-175). -/
def saveModelName (steps : ℕ) : List Char := "agent.model-".data ++ natChars steps

/-- The checkpoint filenames emitted during the first `n` iterations of
`learn`, given `_save_model_dir` is set: the local counter `steps` starts at
0 (line 165), is incremented each iteration (line 172), and a checkpoint
named `'agent.model-%d' % steps` is written when
`steps % save_model_freq == 0` (lines 173-175). -/
def learnSaveNames (saveModelFreq n : ℕ) : List (List Char) :=
  (List.range n).filterMap fun i =>
    if (i + 1) % saveModelFreq = 0 then some (saveModelName (i + 1)) else none

/-- The fields of `FastDQNAgent.__init__` relevant to initialization:
`eps_start`, `batch_size`, `init_memory_size`, `init_model_path`. -/
structure AgentConfig where
  epsStart : ℝ
  batchSize : ℕ
  initMemorySize : ℕ
  initModelPath : Option (List Char)

/-- The initial agent state set up by `FastDQNAgent.__init__`:
`_current_eps` (the shared scalar), `_episode_idx`, `_init_memory_size`. -/
structure AgentInitState where
  currentEps : ℝ
  episodeIdx : ℕ
  initMemorySizeEff : ℕ

/-- `self._init_memory_size = max(init_memory_size, batch_size)` (line 118). -/
def effInitMemorySize (initMemorySize batchSize : ℕ) : ℕ :=
  max initMemorySize batchSize

/-- `FastDQNAgent.__init__`: `_episode_idx = 0` (line 123),
`_current_eps = multiprocessing.Value('d', 1.0)` (line 124), and when
`init_model_path` is given, `_episode_idx` is overwritten with the trailing
step count parsed from the filename (lines 129-132); `none` when that parse
fails (Python `int` raising `ValueError`). -/
def initAgent (cfg : AgentConfig) : Option AgentInitState :=
  match cfg.initModelPath with
  | none => some
      { currentEps := 1
        episodeIdx := 0
        initMemorySizeEff := effInitMemorySize cfg.initMemorySize cfg.batchSize }
  | some p => (parseTrailingStep p).map fun k =>
      { currentEps := 1
        episodeIdx := k
        initMemorySizeEff := effInitMemorySize cfg.initMemorySize cfg.batchSize }

/-- The configuration fields of the learner loop `learn`:
`_double_dqn`, `_target_update_freq` and the epsilon-schedule fields. -/
structure LearnerConfig where
  doubleDqn : Bool
  targetUpdateFreq : ℕ
  eps : EpsConfig

/-- The state the learner loop mutates: the live network parameters, the
target network parameters, the shared epsilon scalar and the local step
counter. The parameter type `P` is abstract (an opaque weight blob). -/
structure LearnerState (P : Type) where
  qParams : P
  targetParams : P
  currentEps : ℝ
  steps : ℕ

/-- Lines 168-169 of `learn`: when double-DQN is on and
`steps % target_update_freq == 0`, `_update_target_network` (lines 306-308)
overwrites the target parameters with a full copy
(`load_state_dict(state_dict())`) of the live parameters. -/
def syncTarget {P : Type} (cfg : LearnerConfig) (s : LearnerState P) : LearnerState P :=
  if cfg.doubleDqn = true ∧ s.steps % cfg.targetUpdateFreq = 0 then
    { s with targetParams := s.qParams }
  else s

/-- One iteration of the `learn` while-loop (lines 167-172): target sync,
then `_current_eps.value = _get_current_eps(steps)`, then `_optimize`
(abstracted as `optStep`, which reads the live and target parameters and
returns new live parameters), then `steps += 1`. Returns `none` when the
epsilon schedule raises (unsupported method). -/
noncomputable def learnIter {P : Type} (cfg : LearnerConfig) (optStep : P → P → P)
    (s : LearnerState P) : Option (LearnerState P) :=
  let s1 := syncTarget cfg s
  (getCurrentEps cfg.eps s1.steps).map fun e =>
    { qParams := optStep s1.qParams s1.targetParams
      targetParams := s1.targetParams
      currentEps := e
      steps := s1.steps + 1 }

/-- Line 165 of `learn`: the loop's step counter starts at 0 (`steps,
loss_sum = 0, 0.0`), whatever the agent's initialization was. -/
def learnStart {P : Type} (a : AgentInitState) (q t : P) : LearnerState P :=
  { qParams := q, targetParams := t, currentEps := a.currentEps, steps := 0 }

/-- `self._num_threads = 8` (line 125): the number of batch-builder threads,
each owning a private replay shard. -/
def numBuilderThreads : ℕ := 8

/-- The warmup gate of `_prepare_batch` (line 257):
`if len(memory) < self._init_memory_size / self._num_threads: continue` —
Python true division, so the comparison is over rationals. `true` means the
thread skips batch production this step. -/
def warmupSkip (initMemorySizeEff numThreads count : ℕ) : Bool :=
  decide ((count : ℚ) < (initMemorySizeEff : ℚ) / (numThreads : ℚ))

/-- Modelled from the spec: `ReplayMemory.sample` lives in
`agents/memory.py`, which is not among the provided sources. Per the spec,
sampling `k` transitions requires `count ≥ k`; sampling from a shard with
fewer transitions than requested is a fatal contract violation. -/
def sampleOk (count k : ℕ) : Bool := decide (k ≤ count)

/-- Deprecated agent (`deprecated/agents/fast_dqn_agent.py`, lines 84-85):
`_epsilon_decrease = (epsilon_max - epsilon_min) / epsilon_decrease_steps`. -/
def epsilonDecrease (epsilonMax epsilonMin : ℚ) (epsilonDecreaseSteps : ℕ) : ℚ :=
  (epsilonMax - epsilonMin) / epsilonDecreaseSteps

/-- Deprecated agent, `train` (lines 148-149): each iteration, if the shared
epsilon exceeds `epsilon_min`, subtract the fixed decrement (check then
subtract, no clamp); otherwise leave it unchanged. -/
def epsTrainStep (epsilonMin dec e : ℚ) : ℚ :=
  if epsilonMin < e then e - dec else e

/-- The shared epsilon of the deprecated agent after `n` training
iterations, starting from `e0` (initialized to `epsilon_max`, line 82). -/
def epsAfter (epsilonMin dec e0 : ℚ) : ℕ → ℚ
  | 0 => e0
  | n + 1 => epsTrainStep epsilonMin dec (epsAfter epsilonMin dec e0 n)

end TStarBot

namespace TStarBot

theorem getD_argmaxIdx_eq_rowMax (l : List ℚ) (h : l ≠ []) :
    l.getD (argmaxIdx l) 0 = rowMax l := by
  induction l with
  | nil => exact absurd rfl h
  | cons x t ih =>
    cases t with
    | nil => rfl
    | cons y t' =>
      simp only [argmaxIdx, rowMax]
      by_cases hx : x < rowMax (y :: t')
      · rw [if_pos hx]
        simp only [List.getD_cons_succ]
        rw [ih (by simp), max_eq_right hx.le]
      · rw [if_neg hx]
        simp only [List.getD_cons_zero]
        rw [max_eq_left (le_of_not_lt hx)]

theorem getD_le_rowMax (l : List ℚ) (k : ℕ) (hk : k < l.length) :
    l.getD k 0 ≤ rowMax l := by
  induction l generalizing k with
  | nil => simp at hk
  | cons x t ih =>
    cases t with
    | nil =>
      have hk0 : k = 0 := by simp at hk; omega
      subst hk0
      simp [rowMax]
    | cons y t' =>
      cases k with
      | zero =>
        simp only [List.getD_cons_zero, rowMax]
        exact le_max_left _ _
      | succ k' =>
        simp only [List.getD_cons_succ, rowMax]
        refine le_trans (ih k' ?_) (le_max_right _ _)
        simpa using Nat.lt_of_succ_lt_succ hk

/-- C3: the linear epsilon schedule computes
`eps_start - (eps_start - eps_end) * min(step, eps_decay) / eps_decay` for
every nonnegative step; `compute(0) = eps_start`; `compute(step) = eps_end`
whenever `step ≥ eps_decay` (so in particular at `step = eps_decay` and
beyond); and with `eps_start=1.0, eps_end=0.1, eps_decay=100` it gives
`compute(50) = 0.55` and `compute(150) = 0.1`. -/
theorem c3_linear_eps_schedule (cfg : EpsConfig) (hm : cfg.epsMethod = "linear")
    (hd : 0 < cfg.epsDecay) :
    (∀ s : ℕ, getCurrentEps cfg s =
      some (cfg.epsStart - (cfg.epsStart - cfg.epsEnd) * min cfg.epsDecay (s : ℝ) / cfg.epsDecay))
    ∧ linEps cfg 0 = cfg.epsStart
    ∧ (∀ s : ℕ, cfg.epsDecay ≤ (s : ℝ) → linEps cfg s = cfg.epsEnd)
    ∧ linEps ⟨"linear", 1, 1/10, 100⟩ 50 = 11/20
    ∧ linEps ⟨"linear", 1, 1/10, 100⟩ 150 = 1/10 := by
  refine ⟨fun s => ?_, ?_, fun s hs => ?_, ?_, ?_⟩
  · simp [getCurrentEps, hm, linEps]
  · simp [linEps, min_eq_right hd.le]
  · rw [linEps, min_eq_left hs, mul_div_assoc, div_self (ne_of_gt hd), mul_one]
    ring
  · rw [linEps]
    norm_num [min_def]
  · rw [linEps]
    norm_num [min_def]

/-- Witness for C3 at `eps_start=1, eps_end=0.1, eps_decay=100`. -/
theorem c3_linear_eps_schedule_check :
    (⟨"linear", 1, 1/10, 100⟩ : EpsConfig).epsMethod = "linear"
    ∧ (0:ℝ) < (⟨"linear", 1, 1/10, 100⟩ : EpsConfig).epsDecay
    ∧ linEps ⟨"linear", 1, 1/10, 100⟩ 0 = (⟨"linear", 1, 1/10, 100⟩ : EpsConfig).epsStart :=
  ⟨rfl, by norm_num,
    (c3_linear_eps_schedule ⟨"linear", 1, 1/10, 100⟩ rfl (by norm_num)).2.1⟩

/-- C7: the exponential epsilon schedule computes
`eps_end + (eps_start - eps_end) * exp(-step / eps_decay)` for every
nonnegative step; `compute(0) = eps_start`; and for `eps_start > eps_end`
(and positive `eps_decay`) it is strictly decreasing in the step. -/
theorem c7_exponential_eps_schedule (cfg : EpsConfig)
    (hm : cfg.epsMethod = "exponential") (hd : 0 < cfg.epsDecay)
    (he : cfg.epsEnd < cfg.epsStart) :
    (∀ s : ℕ, getCurrentEps cfg s =
      some (cfg.epsEnd + (cfg.epsStart - cfg.epsEnd) * Real.exp (-(s : ℝ) / cfg.epsDecay)))
    ∧ expEps cfg 0 = cfg.epsStart
    ∧ ∀ s1 s2 : ℕ, s1 < s2 → expEps cfg s2 < expEps cfg s1 := by
  refine ⟨fun s => ?_, ?_, fun s1 s2 h => ?_⟩
  · simp [getCurrentEps, hm, expEps, neg_one_mul]
  · simp [expEps, Real.exp_zero]
  · rw [expEps, expEps]
    have hcast : (s1 : ℝ) < (s2 : ℝ) := by exact_mod_cast h
    have hlt : (-1 * (s2 : ℝ) / cfg.epsDecay) < -1 * (s1 : ℝ) / cfg.epsDecay := by
      apply (div_lt_div_iff_of_pos_right hd).mpr
      nlinarith
    have hexp := Real.exp_lt_exp.mpr hlt
    have hpos : (0:ℝ) < cfg.epsStart - cfg.epsEnd := sub_pos.mpr he
    nlinarith [mul_lt_mul_of_pos_left hexp hpos]

/-- Witness for C7 at `eps_start=1, eps_end=0, eps_decay=1`. -/
theorem c7_exponential_eps_schedule_check :
    (⟨"exponential", 1, 0, 1⟩ : EpsConfig).epsMethod = "exponential"
    ∧ (0:ℝ) < (⟨"exponential", 1, 0, 1⟩ : EpsConfig).epsDecay
    ∧ (⟨"exponential", 1, 0, 1⟩ : EpsConfig).epsEnd < (⟨"exponential", 1, 0, 1⟩ : EpsConfig).epsStart
    ∧ expEps ⟨"exponential", 1, 0, 1⟩ 0 = (⟨"exponential", 1, 0, 1⟩ : EpsConfig).epsStart :=
  ⟨rfl, by norm_num, by norm_num,
    (c7_exponential_eps_schedule ⟨"exponential", 1, 0, 1⟩ rfl (by norm_num) (by norm_num)).2.1⟩

/-- C1: for every batch position, the learner's bootstrapped target equals
`reward + discount * future` where the future value is multiplied by
`1 - done`; in particular, on a terminal transition (`done = true`) the
target equals the reward exactly, whatever the next-state action-values;
and concretely, with double-DQN off, `discount = 0.9`, `reward = 1.0`,
`done = true` and `q_next` row `[5, -3]`, the target is exactly `1.0`. -/
theorem c1_terminal_target_equals_reward (doubleDqn : Bool) (discount : ℚ)
    (qNext qNextTarget : List (List ℚ)) (rewards : List ℚ) (dones : List Bool)
    (i : ℕ) (hr : i < rewards.length) (hdn : i < dones.length)
    (hf : i < (optimizeFutures doubleDqn qNext qNextTarget).length) :
    (optimizeTargetQ doubleDqn discount qNext qNextTarget rewards dones).getD i 0
      = rewards.getD i 0
        + discount * ((optimizeFutures doubleDqn qNext qNextTarget).getD i 0
            * (1 - (if dones.getD i false then (1:ℚ) else 0)))
    ∧ (dones.getD i false = true →
        (optimizeTargetQ doubleDqn discount qNext qNextTarget rewards dones).getD i 0
          = rewards.getD i 0)
    ∧ optimizeTargetQ false (9/10) [[5, -3]] [[0, 0]] [1] [true] = [1] := by
  have hz1 : i < (maskDone (optimizeFutures doubleDqn qNext qNextTarget) dones).length := by
    simp only [maskDone, List.length_zipWith]
    omega
  have hz0 : i < (optimizeTargetQ doubleDqn discount qNext qNextTarget rewards dones).length := by
    simp only [optimizeTargetQ, maskDone, List.length_zipWith]
    omega
  have key : (optimizeTargetQ doubleDqn discount qNext qNextTarget rewards dones).getD i 0
      = rewards.getD i 0
        + discount * ((optimizeFutures doubleDqn qNext qNextTarget).getD i 0
            * (1 - (if dones.getD i false then (1:ℚ) else 0))) := by
    rw [List.getD_eq_getElem _ 0 hz0]
    simp only [optimizeTargetQ]
    rw [List.getElem_zipWith]
    simp only [maskDone]
    rw [List.getElem_zipWith]
    rw [List.getD_eq_getElem rewards 0 hr, List.getD_eq_getElem _ 0 hf,
      List.getD_eq_getElem dones false hdn]
  refine ⟨key, fun hdone => ?_, ?_⟩
  · rw [key, hdone]
    simp
  · show List.zipWith _ _ _ = _
    norm_num [optimizeFutures, maskDone, rowMax]

/-- Witness for C1: the end-to-end scenario with double-DQN off,
`discount = 0.9`, `reward = 1.0`, `done = true`, `q_next` row `[5, -3]`. -/
theorem c1_terminal_target_equals_reward_check :
    optimizeTargetQ false (9/10) [[5, -3]] [[0, 0]] [1] [true] = [1] :=
  (c1_terminal_target_equals_reward false (9/10) [[5, -3]] [[0, 0]] [1] [true] 0
    (by decide) (by decide) (by simp [optimizeFutures])).2.2

/-- C4: per batch row, the double-DQN branch gathers, from the target
network's output row, the value at the argmax action of the current
network's `q_next` row; the plain branch takes the maximum of the `q_next`
row; the selected index is a genuine argmax (its value bounds every entry
of the row and equals the row maximum on nonempty rows). -/
theorem c4_double_dqn_future_selection (qNext qNextTarget : List (List ℚ)) (i : ℕ)
    (hn : i < qNext.length) (ht : i < qNextTarget.length) :
    (optimizeFutures true qNext qNextTarget).getD i 0
      = (qNextTarget.getD i []).getD (argmaxIdx (qNext.getD i [])) 0
    ∧ (optimizeFutures false qNext qNextTarget).getD i 0 = rowMax (qNext.getD i [])
    ∧ (∀ k, k < (qNext.getD i []).length →
        (qNext.getD i []).getD k 0
          ≤ (qNext.getD i []).getD (argmaxIdx (qNext.getD i [])) 0)
    ∧ (qNext.getD i [] ≠ [] →
        (qNext.getD i []).getD (argmaxIdx (qNext.getD i [])) 0 = rowMax (qNext.getD i [])) := by
  refine ⟨?_, ?_, fun k hk => ?_, fun hne => getD_argmaxIdx_eq_rowMax _ hne⟩
  · have hz : i < (optimizeFutures true qNext qNextTarget).length := by
      simp only [optimizeFutures, eq_self_iff_true, if_true, gatherArgmax,
        List.length_zipWith]
      omega
    rw [List.getD_eq_getElem _ 0 hz]
    simp only [optimizeFutures, eq_self_iff_true, if_true, gatherArgmax]
    rw [List.getElem_zipWith]
    rw [List.getD_eq_getElem qNextTarget [] ht, List.getD_eq_getElem qNext [] hn]
  · have hz : i < (optimizeFutures false qNext qNextTarget).length := by
      simp only [optimizeFutures, Bool.false_eq_true, if_false, List.length_map]
      omega
    rw [List.getD_eq_getElem _ 0 hz]
    simp only [optimizeFutures, Bool.false_eq_true, if_false]
    rw [List.getElem_map]
    rw [List.getD_eq_getElem qNext [] hn]
  · have hne : qNext.getD i [] ≠ [] := by
      intro hemp
      rw [hemp] at hk
      simp at hk
    rw [getD_argmaxIdx_eq_rowMax _ hne]
    exact getD_le_rowMax _ k hk

/-- Witness for C4 at `q_next = [[5, -3]]`, `q_next_target = [[7, 9]]`. -/
theorem c4_double_dqn_future_selection_check :
    (optimizeFutures true [[5, -3]] [[7, 9]]).getD 0 0
      = ([[(7:ℚ), 9]].getD 0 []).getD (argmaxIdx ([[(5:ℚ), -3]].getD 0 [])) 0 :=
  (c4_double_dqn_future_selection [[5, -3]] [[7, 9]] 0 (by decide) (by decide)).1

/-- C8: the epsilon-schedule computation fails exactly when the method
string is neither `"exponential"` nor `"linear"`, and the loss computation
fails exactly when the loss string is neither `"mse"` nor `"smooth_l1"`;
for the supported identifiers both succeed. -/
theorem c8_unsupported_kind_errors :
    (∀ (cfg : EpsConfig) (s : ℕ),
      (getCurrentEps cfg s).isNone
        ↔ (cfg.epsMethod ≠ "exponential" ∧ cfg.epsMethod ≠ "linear"))
    ∧ ∀ (lossType : String) (q targetQ : List ℚ),
      (computeLoss lossType q targetQ).isNone
        ↔ (lossType ≠ "mse" ∧ lossType ≠ "smooth_l1") := by
  constructor
  · intro cfg s
    by_cases h1 : cfg.epsMethod = "exponential" <;>
      by_cases h2 : cfg.epsMethod = "linear" <;>
        simp [getCurrentEps, h1, h2]
  · intro lossType q targetQ
    by_cases h1 : lossType = "smooth_l1" <;>
      by_cases h2 : lossType = "mse" <;>
        simp [computeLoss, h1, h2]

theorem syncTarget_steps {P : Type} (cfg : LearnerConfig) (s : LearnerState P) :
    (syncTarget cfg s).steps = s.steps := by
  rw [syncTarget]
  split <;> rfl

theorem syncTarget_qParams {P : Type} (cfg : LearnerConfig) (s : LearnerState P) :
    (syncTarget cfg s).qParams = s.qParams := by
  rw [syncTarget]
  split <;> rfl

theorem learnIter_eq_some {P : Type} (cfg : LearnerConfig) (optStep : P → P → P)
    (s s' : LearnerState P) (h : learnIter cfg optStep s = some s') :
    ∃ e, getCurrentEps cfg.eps s.steps = some e
      ∧ s' = { qParams := optStep (syncTarget cfg s).qParams (syncTarget cfg s).targetParams
               targetParams := (syncTarget cfg s).targetParams
               currentEps := e
               steps := s.steps + 1 } := by
  simp only [learnIter, syncTarget_steps] at h
  obtain ⟨e, he, hf⟩ := Option.map_eq_some'.mp h
  exact ⟨e, he, hf.symm⟩

/-- C5: in a Learner iteration with double-DQN on and
`steps % target_update_freq == 0`, the target parameters are overwritten
with a full copy of the live parameters (the live parameters themselves
untouched by the sync), so immediately after the sync they are equal; and
the target parameters are written by no other operation: over a whole
iteration they become the pre-iteration live parameters exactly when the
sync condition held, and stay identical otherwise (in particular the
optimizer step never changes them). -/
theorem c5_target_sync_full_copy {P : Type} (cfg : LearnerConfig)
    (optStep : P → P → P) (s : LearnerState P) (hdd : cfg.doubleDqn = true)
    (hm : s.steps % cfg.targetUpdateFreq = 0) :
    (syncTarget cfg s).targetParams = s.qParams
    ∧ (syncTarget cfg s).qParams = s.qParams
    ∧ (∀ s', learnIter cfg optStep s = some s' → s'.targetParams = s.qParams)
    ∧ ∀ s0 : LearnerState P,
        ¬(cfg.doubleDqn = true ∧ s0.steps % cfg.targetUpdateFreq = 0) →
        ∀ s', learnIter cfg optStep s0 = some s' → s'.targetParams = s0.targetParams := by
  have hsync : syncTarget cfg s = { s with targetParams := s.qParams } := by
    rw [syncTarget, if_pos ⟨hdd, hm⟩]
  refine ⟨by rw [hsync], syncTarget_qParams cfg s, fun s' h => ?_, fun s0 h0 s' h => ?_⟩
  · obtain ⟨e, _, hs'⟩ := learnIter_eq_some cfg optStep s s' h
    rw [hs', hsync]
  · obtain ⟨e, _, hs'⟩ := learnIter_eq_some cfg optStep s0 s' h
    have hsync0 : syncTarget cfg s0 = s0 := by rw [syncTarget, if_neg h0]
    rw [hs', hsync0]

/-- Witness for C5: double-DQN on, `target_update_freq = 5`, `steps = 0`. -/
theorem c5_target_sync_full_copy_check :
    (syncTarget ⟨true, 5, ⟨"linear", 1, 0, 10⟩⟩ (⟨3, 7, 1, 0⟩ : LearnerState ℚ)).targetParams
      = (⟨3, 7, 1, 0⟩ : LearnerState ℚ).qParams :=
  (c5_target_sync_full_copy ⟨true, 5, ⟨"linear", 1, 0, 10⟩⟩ (fun q _ => q)
    ⟨3, 7, 1, 0⟩ rfl (by decide)).1

/-- C6 counterexample: with `eps_start = 0.5`, `FastDQNAgent.__init__`
still initializes the shared epsilon scalar to the constant `1.0`
(`multiprocessing.Value('d', 1.0)`, line 124), not to `eps_start`. -/
theorem c6_eps_not_initialized_to_eps_start :
    (initAgent ⟨1/2, 32, 1000, none⟩).map AgentInitState.currentEps = some 1
    ∧ ((1:ℝ) ≠ (⟨1/2, 32, 1000, none⟩ : AgentConfig).epsStart) := by
  constructor
  · rfl
  · norm_num

/-- C6 (amended): the shared epsilon scalar is initialized to the constant
`1.0` (which equals `eps_start` only in configurations with
`eps_start = 1.0`), and the only write to it is the Learner publishing
`schedule.compute(step)` once per optimization step: any successful
iteration sets it to exactly `getCurrentEps` of the pre-iteration step
count and advances the step count by one. -/
theorem c6_eps_scalar_single_writer {P : Type} (cfg : AgentConfig)
    (a : AgentInitState) (ha : initAgent cfg = some a)
    (lcfg : LearnerConfig) (optStep : P → P → P) (s s' : LearnerState P)
    (h : learnIter lcfg optStep s = some s') :
    a.currentEps = 1
    ∧ getCurrentEps lcfg.eps s.steps = some s'.currentEps
    ∧ s'.steps = s.steps + 1 := by
  obtain ⟨e, he, hs'⟩ := learnIter_eq_some lcfg optStep s s' h
  refine ⟨?_, by rw [hs']; exact he, by rw [hs']⟩
  rw [initAgent] at ha
  cases hp : cfg.initModelPath with
  | none =>
    rw [hp] at ha
    cases ha
    rfl
  | some p =>
    rw [hp] at ha
    obtain ⟨k, _, hk⟩ := Option.map_eq_some'.mp ha
    rw [← hk]

/-- Witness for C6 (amended): a concrete config without a checkpoint and a
concrete one-step learner iteration under the linear schedule. -/
theorem c6_eps_scalar_single_writer_check :
    ({ currentEps := 1, episodeIdx := 0,
       initMemorySizeEff := effInitMemorySize 1000 32 } : AgentInitState).currentEps = 1
    ∧ getCurrentEps ⟨"linear", 1, 0, 10⟩ 0
        = some ((⟨3, 7, linEps ⟨"linear", 1, 0, 10⟩ 0, 1⟩ : LearnerState ℚ).currentEps) := by
  have ha : initAgent ⟨1, 32, 1000, none⟩
      = some { currentEps := 1, episodeIdx := 0,
               initMemorySizeEff := effInitMemorySize 1000 32 } := rfl
  have hi : learnIter ⟨false, 5, ⟨"linear", 1, 0, 10⟩⟩ (fun q _ => q)
      (⟨3, 7, 1, 0⟩ : LearnerState ℚ)
      = some (⟨3, 7, linEps ⟨"linear", 1, 0, 10⟩ 0, 1⟩ : LearnerState ℚ) := by
    simp only [learnIter, syncTarget, Bool.false_eq_true, false_and, if_false]
    rw [getCurrentEps, if_neg (by decide), if_pos rfl]
    rfl
  have key := c6_eps_scalar_single_writer ⟨1, 32, 1000, none⟩ _ ha
    ⟨false, 5, ⟨"linear", 1, 0, 10⟩⟩ (fun q _ => q) ⟨3, 7, 1, 0⟩ _ hi
  exact ⟨key.1, key.2.1⟩

/-- C9 counterexample: loading checkpoint `agent.model-5000` does parse
5000 from the filename, but `__init__` stores it into `_episode_idx`
(lines 131-132), and `learn` starts its own step counter at 0 (line 165):
the Learner's step counter is not resumed at 5000. -/
theorem c9_step_counter_not_resumed :
    parseTrailingStep ("agent.model-5000".data) = some 5000
    ∧ (initAgent ⟨1, 32, 1000, some ("agent.model-5000".data)⟩).map
        AgentInitState.episodeIdx = some 5000
    ∧ (learnStart (⟨1, 5000, effInitMemorySize 1000 32⟩ : AgentInitState)
        (3:ℚ) 7).steps = 0
    ∧ (0 : ℕ) ≠ 5000 := by
  refine ⟨rfl, rfl, rfl, by decide⟩

/-- C9 (amended): checkpoints are written every `save_model_freq` steps
under the name `agent.model-<step>`, where the step comes from `learn`'s
local counter, which always starts at 0; loading a checkpoint parses the
trailing step count from the filename, but only into the agent's episode
index — the Learner's step counter is not resumed, so subsequent
checkpoints restart from `save_model_freq`. A name is emitted within the
first `n` iterations iff it is `agent.model-<k>` for some positive
`k ≤ n` divisible by the frequency. -/
theorem c9_checkpoint_naming (freq n : ℕ) (es : ℝ) (bs ims : ℕ) (p : List Char) :
    (∀ s, s ∈ learnSaveNames freq n ↔
      ∃ k, 1 ≤ k ∧ k ≤ n ∧ k % freq = 0 ∧ s = saveModelName k)
    ∧ (∀ (P : Type) (a : AgentInitState) (q t : P), (learnStart a q t).steps = 0)
    ∧ initAgent ⟨es, bs, ims, some p⟩
        = (parseTrailingStep p).map fun k =>
            ⟨1, k, effInitMemorySize ims bs⟩ := by
  refine ⟨fun s => ?_, fun P a q t => rfl, rfl⟩
  rw [learnSaveNames, List.mem_filterMap]
  constructor
  · rintro ⟨i, hi, hif⟩
    rw [List.mem_range] at hi
    by_cases hdiv : (i + 1) % freq = 0
    · rw [if_pos hdiv] at hif
      exact ⟨i + 1, by omega, by omega, hdiv, (Option.some.inj hif).symm⟩
    · rw [if_neg hdiv] at hif
      exact absurd hif (by simp)
  · rintro ⟨k, hk1, hkn, hkf, hs⟩
    refine ⟨k - 1, List.mem_range.mpr (by omega), ?_⟩
    have hk : k - 1 + 1 = k := by omega
    rw [hk, if_pos hkf, hs]

/-- C2 (failing configuration): with `init_memory_size = 32`,
`batch_size = 32` and the source's 8 builder threads, the warmup gate of
`_prepare_batch` stops skipping as soon as a shard holds 4 transitions
(`4 < max(32, 32) / 8` is false), yet it then samples `batch_size = 32`
from that shard of 4 — violating the sampling contract the gate was meant
to protect (`count ≥ batch_size` fails: `4 < 32`). -/
theorem c2_warmup_gate_insufficient :
    warmupSkip (effInitMemorySize 32 32) numBuilderThreads 4 = false
    ∧ sampleOk 4 32 = false
    ∧ 4 < 32 := by
  refine ⟨?_, by decide, by decide⟩
  norm_num [warmupSkip, effInitMemorySize, numBuilderThreads]

/-- C10: in the deprecated pipeline, each training iteration decrements the
shared epsilon by the fixed amount `(epsilon_max - epsilon_min) /
epsilon_decrease_steps` whenever its current value exceeds `epsilon_min`
(a check-then-subtract, not a clamp); the value never drops more than one
decrement below `epsilon_min`; once it is at or below `epsilon_min` it
never changes again; and a value strictly between `epsilon_min` and
`epsilon_min + decrement` ends strictly below `epsilon_min`. -/
theorem c10_deprecated_eps_check_then_subtract (emax emin : ℚ) (nsteps : ℕ)
    (hle : emin ≤ emax) :
    (∀ e, emin < e →
      epsTrainStep emin (epsilonDecrease emax emin nsteps) e
        = e - epsilonDecrease emax emin nsteps)
    ∧ (∀ e, e ≤ emin →
        epsTrainStep emin (epsilonDecrease emax emin nsteps) e = e)
    ∧ (∀ n, emin - epsilonDecrease emax emin nsteps
        ≤ epsAfter emin (epsilonDecrease emax emin nsteps) emax n)
    ∧ (∀ n m, n ≤ m →
        epsAfter emin (epsilonDecrease emax emin nsteps) emax n ≤ emin →
        epsAfter emin (epsilonDecrease emax emin nsteps) emax m
          = epsAfter emin (epsilonDecrease emax emin nsteps) emax n)
    ∧ (0 < epsilonDecrease emax emin nsteps →
        ∃ e, emin < e ∧ epsTrainStep emin (epsilonDecrease emax emin nsteps) e < emin) := by
  set dec := epsilonDecrease emax emin nsteps with hdef
  have hdec : 0 ≤ dec := by
    rw [hdef, epsilonDecrease]
    exact div_nonneg (by linarith) (Nat.cast_nonneg nsteps)
  refine ⟨fun e he => ?_, fun e he => ?_, fun n => ?_, fun n m hnm hle' => ?_, fun hd => ?_⟩
  · rw [epsTrainStep, if_pos he]
  · rw [epsTrainStep, if_neg (not_lt.mpr he)]
  · induction n with
    | zero =>
      show emin - dec ≤ emax
      linarith
    | succ k ih =>
      show emin - dec ≤ epsTrainStep emin dec (epsAfter emin dec emax k)
      rw [epsTrainStep]
      split
      · rename_i hgt
        linarith
      · exact ih
  · induction m, hnm using Nat.le_induction with
    | base => rfl
    | succ m hm ih =>
      show epsTrainStep emin dec (epsAfter emin dec emax m) = _
      rw [ih, epsTrainStep, if_neg (not_lt.mpr hle')]
  · refine ⟨emin + dec / 2, by linarith, ?_⟩
    rw [epsTrainStep, if_pos (by linarith)]
    linarith

/-- Witness for C10 at `epsilon_max = 1`, `epsilon_min = 1/2`,
`epsilon_decrease_steps = 2` (decrement `1/4`). -/
theorem c10_deprecated_eps_check_then_subtract_check :
    (1/2 : ℚ) ≤ 1
    ∧ epsTrainStep (1/2) (epsilonDecrease 1 (1/2) 2) 1
        = 1 - epsilonDecrease 1 (1/2) 2 :=
  ⟨by norm_num,
    (c10_deprecated_eps_check_then_subtract 1 (1/2) 2 (by norm_num)).1 1 (by norm_num)⟩

end TStarBot
